import Mathlib

/-!
Verification of the ansibotmini triage engine (`ansibotmini.py`).

This file shallowly embeds the parts of the source the claims are about: the
command parser (the three command regexes applied line by line), the
toggle-precedence computation of `triage`, the per-object triage driver with
its `bot_broken`/`bot_skip` short-circuits, label diffing, consistency
assertion and mutation calls, the batch loop, the `needs_info` escalation
rule, the component-command overlay of `match_components`, `close_object`,
`remove_labels`, and the staleness filter of `fetch_objects`.

Timestamps are modelled as integers (seconds); `daysSince` mirrors Python's
`timedelta.days` (floor division by 86400). Bodies are processed at the
character-list level, one line at a time, mirroring the multiline regexes of
the source. Raised Python exceptions surface as `Except.error` carrying the
exception text; remote mutations are recorded as values of type `Mutation`
in call order instead of being performed.
-/

namespace Ansibot

/-- Source constant `BOT_ACCOUNT = "ansibot"`. -/
def BOT_ACCOUNT : String := "ansibot"

/-- Source constant `STALE_ISSUE_DAYS = 7`. -/
def STALE_ISSUE_DAYS : Int := 7

/-- Source constant `NEEDS_INFO_WARN_DAYS = 14`. -/
def NEEDS_INFO_WARN_DAYS : Int := 14

/-- Source constant `NEEDS_INFO_CLOSE_DAYS = 28`. -/
def NEEDS_INFO_CLOSE_DAYS : Int := 28

/-- Source `days_since`: whole days between `when` and `now`, with Python's
flooring `timedelta.days` semantics. -/
def daysSince (now wn : Int) : Int := (now - wn).fdiv 86400

/-- Timeline events as produced by `process_events`: one variant per event
kind, each carrying its creation timestamp; issue comments additionally carry
their body, author and last-edit timestamp. -/
inductive Event where
  | labeled (label author : String) (created_at : Int)
  | unlabeled (label author : String) (created_at : Int)
  | issueComment (body author : String) (created_at updated_at : Int)
  | crossReferenced (number : Nat) (repo : String) (created_at : Int)
deriving DecidableEq

/-- Source dataclass `CI` (`build_id` is the string captured by
`AZP_BUILD_ID_RE`). -/
structure CI where
  build_id : String
  conclusion : Option String
  status : String
  updated_at : Int
deriving DecidableEq

/-- The fields the source dataclass `PR` adds on top of `Issue`. -/
structure PRData where
  branch : String
  files : List String
  mergeable : String
  changes_requested : Bool
  last_review : Option Int
  last_commit : Int
  ci : Option CI
  from_repo : String
  merge_commit : Bool
  has_issue : Bool
deriving DecidableEq

/-- Source dataclass `Issue`; `labels` is the name-to-id mapping. Because the
source's `PR` subclasses `Issue`, a PR is modelled as an `Issue` whose `pr`
extension is present, so every object satisfies the `Issue` instance check. -/
structure Issue where
  id : String
  author : String
  number : Nat
  title : String
  body : String
  events : List Event
  labels : List (String × String)
  updated_at : Int
  components : List String
  last_triaged : Int
  pr : Option PRData := none
deriving DecidableEq

/-- Source dataclass `Command`. -/
structure Command where
  updated_at : Int
  arg : Option String := none
deriving DecidableEq

/-- Source dataclass `Actions`: the mutable accumulator of the rule
pipeline. -/
structure Actions where
  to_label : List String := []
  to_unlabel : List String := []
  comments : List String := []
  cancel_ci : Bool := false
  close : Bool := false
deriving DecidableEq

/-- Split a character list into lines at newline characters, the positions at
which the `re.MULTILINE` anchors `^`/`$` of the command regexes match. -/
def splitLinesAux : List Char → List Char → List (List Char)
  | [], acc => [acc.reverse]
  | '\n' :: rest, acc => acc.reverse :: splitLinesAux rest []
  | c :: rest, acc => splitLinesAux rest (c :: acc)

/-- All lines of a body. -/
def splitLines (s : String) : List (List Char) := splitLinesAux s.data []

/-- Consume the expected characters `pat` from the front of `l`, returning
the remainder on success. -/
def dropExpected : List Char → List Char → Option (List Char)
  | [], rest => some rest
  | p :: ps, c :: cs => if p = c then dropExpected ps cs else none
  | _ :: _, [] => none

/-- Source tuple `VALID_COMMANDS`, in source order (the order of the regex
alternation). -/
def VALID_COMMANDS : List String :=
  ["bot_skip", "!bot_skip", "bot_broken", "!bot_broken", "needs_info",
   "waiting_on_contributor", "!needs_collection_redirect"]

/-- One line matched against `COMMANDS_RE`
(`^(bot_skip|...)\s*$` with `re.MULTILINE`): the line is a valid command
followed only by whitespace. -/
def lineCommand (line : List Char) : Option String :=
  VALID_COMMANDS.find? (fun cmd =>
    match dropExpected cmd.data line with
    | some rest => rest.all Char.isWhitespace
    | none => false)

/-- `COMMANDS_RE.findall(body)`: every matching line, in order. -/
def parseCommands (body : String) : List String :=
  (splitLines body).filterMap lineCommand

/-- Longest leading run of characters in the class `[#0-9]`. -/
def takeRefChars : List Char → List Char × List Char
  | [] => ([], [])
  | c :: cs =>
    if c = '#' ∨ c.isDigit then
      ((c :: (takeRefChars cs).1), (takeRefChars cs).2)
    else ([], c :: cs)

/-- One line matched against `RESOLVED_BY_PR_RE`
(`^resolved_by_pr\s([#0-9]+)\s*$`). -/
def lineResolvedByPr (line : List Char) : Option String :=
  match dropExpected "resolved_by_pr".data line with
  | some (c :: rest) =>
    if c.isWhitespace then
      if (takeRefChars rest).1 ≠ [] ∧ (takeRefChars rest).2.all Char.isWhitespace then
        some (String.mk (takeRefChars rest).1)
      else none
    else none
  | _ => none

/-- Strip the optional `@ansibot\s` of `COMPONENT_COMMAND_RE` from the front
of a line. -/
def stripBotMention (line : List Char) : List Char :=
  match dropExpected "@ansibot".data line with
  | some (c :: rest) => if c.isWhitespace then rest else line
  | _ => line

/-- One line matched against `COMPONENT_COMMAND_RE`
(`^(?:@ansibot\s)?!component\s([=+-]\S+)$`): the captured group keeps the
operator character in front of the path. -/
def lineComponentCommand (line : List Char) : Option String :=
  match dropExpected "!component".data (stripBotMention line) with
  | some (c :: op :: path) =>
    if c.isWhitespace ∧ (op = '=' ∨ op = '+' ∨ op = '-') ∧
        path ≠ [] ∧ path.all (fun ch => !ch.isWhitespace) then
      some (String.mk (op :: path))
    else none
  | _ => none

/-- `COMPONENT_COMMAND_RE.findall(body)`: every matching line's captured
argument, in order. -/
def parseComponentCommands (body : String) : List String :=
  (splitLines body).filterMap lineComponentCommand

/-- The body/timestamp pairs the command loop of `triage` scans: the object's
body stamped with the object's `updated_at`, then every issue comment stamped
with the comment's own `updated_at`, in event order. -/
def collectBodies (obj : Issue) : List (String × Int) :=
  (obj.body, obj.updated_at) ::
    obj.events.filterMap (fun e =>
      match e with
      | .issueComment body _ _ updated => some (body, updated)
      | _ => none)

/-- Timestamps of the occurrences of keyword `kw` over a list of
body/timestamp pairs, in the order the `triage` loop appends them. -/
def toggleOccs : List (String × Int) → String → List Int
  | [], _ => []
  | (b, ts) :: rest, kw =>
    ((parseCommands b).filterMap (fun c => if c = kw then some ts else none))
      ++ toggleOccs rest kw

/-- Occurrence timestamps of keyword `kw` for an object (body first, then
comments in event order). -/
def occTimestamps (obj : Issue) (kw : String) : List Int :=
  toggleOccs (collectBodies obj) kw

/-- `arg.removeprefix("#")` applied to a resolved_by_pr reference. -/
def stripHash (s : String) : String :=
  match s.data with
  | '#' :: rest => String.mk rest
  | _ => s

/-- The `resolved_by_pr` commands collected over the bodies (one per body at
most: the source uses `.search`, the first matching line). -/
def resolvedByPrCmds : List (String × Int) → List Command
  | [] => []
  | (b, ts) :: rest =>
    (match (splitLines b).findSome? lineResolvedByPr with
     | some r => [{ updated_at := ts, arg := some (stripHash r) }]
     | none => []) ++ resolvedByPrCmds rest

/-- The `component` commands collected over the bodies (all matching lines of
every body, in order). -/
def componentCmds : List (String × Int) → List Command
  | [] => []
  | (b, ts) :: rest =>
    (parseComponentCommands b).map (fun a => { updated_at := ts, arg := some a })
      ++ componentCmds rest

/-- The per-keyword command lists built by the command loop of `triage`
(`ctx.commands_found`): appended in processing order, never sorted. -/
def commandsFound (obj : Issue) (kw : String) : List Command :=
  (toggleOccs (collectBodies obj) kw).map (fun ts => { updated_at := ts, arg := none })
    ++ (if kw = "resolved_by_pr" then resolvedByPrCmds (collectBodies obj) else [])
    ++ (if kw = "component" then componentCmds (collectBodies obj) else [])

/-- Timestamp of the last appended command (`commands[-1].updated_at`); only
used on nonempty lists, exactly as `triage` guards it. -/
def lastTs (cmds : List Command) : Int :=
  (cmds.getLastD { updated_at := 0, arg := none }).updated_at

/-- The toggle-precedence computation of `triage` (`is_bot_broken`,
`is_bot_skip`): the keyword was found, and either the negation was not, or
the LAST APPENDED keyword command is strictly newer than the last appended
negation command. -/
def isEffective (cmds : String → List Command) (kw nkw : String) : Bool :=
  !(cmds kw).isEmpty &&
    ((cmds nkw).isEmpty || decide (lastTs (cmds kw) > lastTs (cmds nkw)))

/-- Maximum of a list of timestamps, `none` on the empty list. -/
def listMax : List Int → Option Int
  | [] => none
  | x :: xs =>
    some (match listMax xs with
          | none => x
          | some m => max x m)

/-- The effective state as the specification words it: the keyword occurs in
the body or some comment, and the negation occurs nowhere or the MAXIMUM
keyword timestamp is strictly greater than the maximum negation timestamp.
Stated over the same occurrence lists the code collects; the spec asserts
those lists are sorted by timestamp before the comparison, which taking
maxima makes irrelevant here. -/
def specToggleEffective (obj : Issue) (kw nkw : String) : Bool :=
  !(occTimestamps obj kw).isEmpty &&
    ((occTimestamps obj nkw).isEmpty ||
      (match listMax (occTimestamps obj kw), listMax (occTimestamps obj nkw) with
       | some a, some b => decide (a > b)
       | _, _ => false))

/-- Remote mutations, recorded instead of performed. -/
inductive Mutation where
  | addLabels (labels : List String)
  | removeLabels (labels : List String)
  | addComment (body : String)
  | cancelCI (build_id : String)
  | closeIssue (id : String)
  | closePR (id : String)
deriving DecidableEq

/-- The label names of an object (the keys of the `labels` mapping). -/
def labelKeys (obj : Issue) : List String := obj.labels.map Prod.fst

/-- Source `remove_labels`: builds `[obj.labels[label] for label in labels]`,
an unguarded dictionary lookup, so a label absent from the object's label
mapping raises `KeyError` before any request is sent. -/
def removeLabelsMutation (obj : Issue) (ls : List String) : Except String Mutation :=
  match ls.find? (fun l => !(labelKeys obj).contains l) with
  | some l => .error ("KeyError: " ++ l)
  | none => .ok (Mutation.removeLabels ls)

/-- `isinstance(obj, Issue)`: true for every object, since the source's `PR`
subclasses `Issue`. -/
def isinstanceIssue (_ : Issue) : Bool := true

/-- `isinstance(obj, PR)`: true exactly for objects carrying the PR
extension. -/
def isinstancePR (obj : Issue) : Bool := obj.pr.isSome

/-- Source `close_object`: tests the `Issue` variant first, the `PR` variant
second, and calls the corresponding close mutation. -/
def close_object (obj : Issue) : Option Mutation :=
  if isinstanceIssue obj then some (Mutation.closeIssue obj.id)
  else if isinstancePR obj then some (Mutation.closePR obj.id)
  else none

/-- The shared triage context, with the ambient wall clock made explicit. -/
structure Ctx where
  now : Int
  cmds : String → List Command

/-- A rule evaluator of the pipeline (`bot_funcs` entry): reads the object,
the context and the accumulator, and returns their updated versions or a
raised exception. -/
abbrev Rule := Ctx → Issue → Actions → Except String (Issue × Actions)

/-- `for f in bot_funcs: f(obj, actions, ctx)` — run the pipeline in order,
a raised exception aborting it. -/
def runRules : List Rule → Ctx → Issue → Actions → Except String (Issue × Actions)
  | [], _, obj, a => .ok (obj, a)
  | f :: fs, ctx, obj, a =>
    match f ctx obj a with
    | .error e => .error e
    | .ok (obj2, a2) => runRules fs ctx obj2 a2

/-- Source line 1297:
`actions.to_label = [l for l in actions.to_label if l not in obj.labels]`. -/
def diffToLabel (toL keys : List String) : List String :=
  toL.filter (fun l => !keys.contains l)

/-- Source line 1298:
`actions.to_unlabel = [l for l in actions.to_unlabel if l in obj.labels]`. -/
def diffToUnlabel (toU keys : List String) : List String :=
  toU.filter (fun l => keys.contains l)

/-- `cancel_ci(obj.ci.build_id)`: an `Issue` has no `ci` attribute and a PR
may have `ci = None`; either raises `AttributeError`. -/
def cancelCiMutation (obj : Issue) : Except String (List Mutation) :=
  match obj.pr with
  | none => .error "AttributeError: ci"
  | some prd =>
    match prd.ci with
    | none => .error "AttributeError: build_id"
    | some ci => .ok [Mutation.cancelCI ci.build_id]

/-- The per-object part of `triage` (source lines 1241-1319): command
collection, toggle precedence, the `bot_broken` and `bot_skip`
short-circuits (with the unconditional non-dry-run
`remove_labels(obj, ["bot_broken"])` between them), the rule pipeline, label
diffing against the object's current labels, the consistency assertion, and
the mutation calls in source order. The pipeline is a parameter exactly as
the source reads the module-level `bot_funcs` list. -/
def triageObject (funcs : List Rule) (now : Int) (obj : Issue) (dryRun : Bool) :
    Except String (List Mutation) := do
  let cmds := commandsFound obj
  let isBotBroken := isEffective cmds "bot_broken" "!bot_broken"
  let isBotSkip := isEffective cmds "bot_skip" "!bot_skip"
  if isBotBroken then
    return (if dryRun then [] else [Mutation.addLabels ["bot_broken"]])
  let pre ← if dryRun then pure ([] : List Mutation) else do
    let m ← removeLabelsMutation obj ["bot_broken"]
    pure [m]
  if isBotSkip then
    return pre
  let ra ← runRules funcs { now := now, cmds := cmds } obj {}
  let obj2 := ra.1
  let acts := ra.2
  let toL := diffToLabel acts.to_label (labelKeys obj2)
  let toU := diffToUnlabel acts.to_unlabel (labelKeys obj2)
  if toL.any (fun l => toU.contains l) then
    throw "AssertionError: labels scheduled to be both added and removed"
  if dryRun then
    return pre
  let addMs := if toL.isEmpty then [] else [Mutation.addLabels toL]
  let remMs ← if toU.isEmpty then pure ([] : List Mutation) else do
    let m ← removeLabelsMutation obj2 toU
    pure [m]
  let commentMs := acts.comments.map Mutation.addComment
  let cancelMs ← if acts.cancel_ci then cancelCiMutation obj2 else pure []
  let closeMs := if acts.close then (close_object obj2).toList else []
  return pre ++ addMs ++ remMs ++ commentMs ++ cancelMs ++ closeMs

/-- The batch loop of `triage` (`for obj in objects.values()`): there is no
per-object exception handler, so a raised exception propagates out of the
loop. Returns the results of the objects processed before any failure, and
the error if one occurred. -/
def triageBatch (funcs : List Rule) (now : Int) (dryRun : Bool) :
    List Issue → List (Nat × List Mutation) × Option String
  | [] => ([], none)
  | obj :: rest =>
    match triageObject funcs now obj dryRun with
    | .error e => ([], some e)
    | .ok ms =>
      ((obj.number, ms) :: (triageBatch funcs now dryRun rest).1,
        (triageBatch funcs now dryRun rest).2)

/-- The component-command overlay step of `match_components`
(`op, path = command.arg[0], command.arg[1:]` and the `match op` block):
`=` replaces the set, `+` appends, `-` removes a present path, anything else
raises the fatal `ValueError`. -/
def applyComponentCommand (existing : List String) (arg : String) :
    Except String (List String) :=
  match arg.data with
  | [] => .error "IndexError: string index out of range"
  | op :: pathChars =>
    if op = '=' then .ok [String.mk pathChars]
    else if op = '+' then .ok (existing ++ [String.mk pathChars])
    else if op = '-' then
      .ok (if existing.contains (String.mk pathChars)
           then existing.erase (String.mk pathChars) else existing)
    else .error ("Incorrect operation for the component command: " ++ String.mk [op])

/-- The overlay loop of `match_components` over the collected `component`
commands, in command order. -/
def applyComponentCommands (existing : List String) :
    List String → Except String (List String)
  | [] => .ok existing
  | a :: rest =>
    match applyComponentCommand existing a with
    | .error e => .error e
    | .ok ex2 => applyComponentCommands ex2 rest

/-- An argument whose first character is one of the three recognized
component operators. -/
def validOpArg (arg : String) : Bool :=
  match arg.data with
  | c :: _ => (c == '=') || (c == '+') || (c == '-')
  | [] => false

/-- Source `last_labeled`: `max(...)` over the creation timestamps of the
`LabeledEvent`s for `name` — `none` models the `ValueError` Python's `max`
raises on an empty sequence. -/
def last_labeled (obj : Issue) (name : String) : Option Int :=
  listMax (obj.events.filterMap (fun e =>
    match e with
    | .labeled lbl _ ts => if lbl = name then some ts else none
    | _ => none))

/-- Source `last_commented_by`: latest creation timestamp of a comment by
`name`, `None` if there is none. -/
def last_commented_by (obj : Issue) (name : String) : Option Int :=
  listMax (obj.events.filterMap (fun e =>
    match e with
    | .issueComment _ author ts _ => if author = name then some ts else none
    | _ => none))

/-- Substring test on character lists (Python's `in` on strings). -/
def hasSub (pat : List Char) : List Char → Bool
  | [] => pat.isEmpty
  | c :: rest => (dropExpected pat (c :: rest)).isSome || hasSub pat rest

/-- The hidden marker `<!--- boilerplate: name --->` the bot embeds in its
comments. -/
def boilerplateMarker (name : String) : String :=
  "<!--- boilerplate: " ++ name ++ " --->"

/-- Source `last_boilerplate`: the creation timestamp of the latest comment
by the bot account whose body contains the named boilerplate marker (the
source returns the event; only its `created_at` is ever read). -/
def last_boilerplate (obj : Issue) (name : String) : Option Int :=
  listMax (obj.events.filterMap (fun e =>
    match e with
    | .issueComment body author ts _ =>
      if author = BOT_ACCOUNT ∧ hasSub (boilerplateMarker name).data body.data then
        some ts
      else none
    | _ => none))

/-- Modelled from the spec: the template rendering collaborator (spec
section 6) lives outside the source tree; a rendered bot comment carries the
hidden boilerplate marker named after its template, which is all the rules
ever inspect, and the substitution variables influence no triage decision. -/
def getTemplate (name : String) : String := boilerplateMarker name

/-- The first statement of the `needs_info` rule: a `needs_info` command
schedules the label. -/
def needsInfoCmdStep (ctx : Ctx) (a : Actions) : Actions :=
  if (ctx.cmds "needs_info").isEmpty then a
  else { a with to_label := a.to_label ++ ["needs_info"] }

/-- The warning guard of the `needs_info` rule: the latest `needs_info_warn`
boilerplate, falling back to the latest `needs_info_base` boilerplate when no
warn boilerplate exists. -/
def fallbackWarnBoilerplate (obj : Issue) : Option Int :=
  match last_boilerplate obj "needs_info_warn" with
  | some x => some x
  | none => last_boilerplate obj "needs_info_base"

/-- The `needs_info` rule evaluator (source lines 931-963): command handling,
escalation by elapsed days when the author's last comment is absent or
strictly older than the last `needs_info` labeling, and unlabeling
otherwise. -/
def needs_info (ctx : Ctx) (obj : Issue) (a0 : Actions) :
    Except String (Issue × Actions) :=
  let a := needsInfoCmdStep ctx a0
  if "needs_info" ∈ labelKeys obj ∨ "needs_info" ∈ a.to_label then
    match last_labeled obj "needs_info" with
    | none => .error "ValueError: max() arg is an empty sequence"
    | some labeledTs =>
      let escalate : Bool :=
        match last_commented_by obj obj.author with
        | none => true
        | some c => decide (labeledTs > c)
      if escalate then
        if daysSince ctx.now labeledTs > NEEDS_INFO_CLOSE_DAYS then
          .ok (obj, { a with
                      close := true,
                      comments := a.comments ++ [getTemplate "needs_info_close"] })
        else if daysSince ctx.now labeledTs > NEEDS_INFO_WARN_DAYS then
          match fallbackWarnBoilerplate obj with
          | none =>
            .ok (obj, { a with comments := a.comments ++ [getTemplate "needs_info_warn"] })
          | some w =>
            if w < labeledTs then
              .ok (obj, { a with comments := a.comments ++ [getTemplate "needs_info_warn"] })
            else .ok (obj, a)
        else .ok (obj, a)
      else
        .ok (obj, { a with
                    to_label := a.to_label.erase "needs_info",
                    to_unlabel := a.to_unlabel ++ ["needs_info"] })
  else .ok (obj, a)

/-- Modelled from the spec: the remote label state after the mutation
collaborator (spec section 6) applies an add set and a remove set to the
currently observed labels. -/
def applyLabelSets (keys addS remS : List String) : List String :=
  keys.filter (fun l => !remS.contains l) ++ addS

/-- The re-fetch decision of `fetch_objects` (source lines 1500-1506): keep
a discovery pair when its number is absent from the cache, or the remote
update timestamp is strictly newer than the cached snapshot's, or the cached
snapshot was last triaged at least `STALE_ISSUE_DAYS` days ago. -/
def staleFilter (cache : List (String × Issue)) (now : Int)
    (results : List (String × Int)) : List (String × Int) :=
  results.filter (fun p =>
    match cache.lookup p.1 with
    | none => true
    | some c =>
      decide (c.updated_at < p.2) ||
        decide (daysSince now c.last_triaged ≥ STALE_ISSUE_DAYS))


/-- Concrete object for claim C1: the keyword `bot_broken` appears in the
body (stamped with the object's `updated_at` of 10, the newest timestamp)
and in an old comment (timestamp 3); the negation `!bot_broken` appears in a
comment between the two (timestamp 5). -/
def objC1 : Issue :=
  { id := "I_1", author := "alice", number := 1, title := "t",
    body := "bot_broken",
    events := [Event.issueComment "bot_broken" "bob" 2 3,
               Event.issueComment "!bot_broken" "carol" 4 5],
    labels := [], updated_at := 10, components := [], last_triaged := 0 }

/-- Concrete object for claim C1's witness: one `bot_skip` command in a
comment, so the collected occurrence list is sorted. -/
def objC1w : Issue :=
  { id := "I_1w", author := "alice", number := 11, title := "t", body := "",
    events := [Event.issueComment "bot_skip" "bob" 1 1],
    labels := [], updated_at := 5, components := [], last_triaged := 0 }

/-- Concrete object for claim C2: no commands and no labels, so the
unconditional `remove_labels(obj, ["bot_broken"])` raises `KeyError`. -/
def objC2a : Issue :=
  { id := "I_2a", author := "alice", number := 21, title := "t", body := "",
    events := [], labels := [], updated_at := 0, components := [], last_triaged := 0 }

/-- Concrete object for claim C2: `bot_broken` effective, so its triage pass
succeeds with a single `add_labels` call. -/
def objC2b : Issue :=
  { id := "I_2b", author := "alice", number := 22, title := "t",
    body := "bot_broken",
    events := [], labels := [], updated_at := 10, components := [], last_triaged := 0 }

/-- Concrete object for claim C3: `bot_skip` effective, `bot_broken` not
effective (no `bot_broken` or `!bot_broken` command anywhere), and the
`bot_broken` label currently present. -/
def objC3 : Issue :=
  { id := "I_3", author := "alice", number := 3, title := "t",
    body := "bot_skip",
    events := [], labels := [("bot_broken", "L1")],
    updated_at := 10, components := [], last_triaged := 0 }

/-- Concrete object for claim C7: labeled `needs_info` at time 0 with the
author's only comment created exactly at time 0 — not after the labeling. -/
def objC7 : Issue :=
  { id := "I_7", author := "alice", number := 7, title := "t", body := "hi",
    events := [Event.labeled "needs_info" "ansibot" 0,
               Event.issueComment "thanks" "alice" 0 0],
    labels := [("needs_info", "L2")], updated_at := 1, components := [],
    last_triaged := 0 }

/-- Concrete object for claim C7's witness: labeled `needs_info` at time 0,
author never commented. -/
def objC7w : Issue :=
  { id := "I_7w", author := "alice", number := 71, title := "t", body := "hi",
    events := [Event.labeled "needs_info" "ansibot" 0],
    labels := [("needs_info", "L2")], updated_at := 1, components := [],
    last_triaged := 0 }

/-- Concrete object for claim C9's witness: no commands, no labels. -/
def objC9 : Issue :=
  { id := "I_9", author := "alice", number := 9, title := "t", body := "",
    events := [], labels := [], updated_at := 0, components := [], last_triaged := 0 }

/-- Helper: the last element of a nonempty list is a member. -/
theorem lastD_mem : (l : List Int) → (d : Int) → l ≠ [] → l.getLastD d ∈ l
  | [x], _, _ => by simp [List.getLastD]
  | x :: y :: ys, d, _ => by
    have ih := lastD_mem (y :: ys) x (by simp)
    rw [List.getLastD_cons]
    exact List.mem_cons_of_mem x ih

/-- Helper: `getLastD` ignores its default on a nonempty list. -/
theorem lastD_irrel : (l : List Int) → (d1 d2 : Int) → l ≠ [] →
    l.getLastD d1 = l.getLastD d2
  | [x], _, _, _ => rfl
  | x :: y :: ys, d1, d2, _ => by
    rw [List.getLastD_cons d1 x (y :: ys), List.getLastD_cons d2 x (y :: ys)]

/-- Helper: on a nonempty list sorted ascending, the maximum is the last
element. -/
theorem listMax_sorted : (l : List Int) → l.Pairwise (fun a b => a ≤ b) → l ≠ [] →
    listMax l = some (l.getLastD 0)
  | [x], _, _ => by simp [listMax, List.getLastD]
  | x :: y :: ys, hp, _ => by
    rw [List.pairwise_cons] at hp
    obtain ⟨hx, hp2⟩ := hp
    have ih := listMax_sorted (y :: ys) hp2 (by simp)
    have hmem : (y :: ys).getLastD 0 ∈ y :: ys := lastD_mem (y :: ys) 0 (by simp)
    have hle : x ≤ (y :: ys).getLastD 0 := hx _ hmem
    have hcc : (x :: y :: ys).getLastD 0 = (y :: ys).getLastD 0 := by
      rw [List.getLastD_cons]
      exact lastD_irrel (y :: ys) x 0 (by simp)
    rw [listMax, ih, hcc]
    show some (max x ((y :: ys).getLastD 0)) = some ((y :: ys).getLastD 0)
    rw [max_eq_right hle]

/-- Helper: the timestamp of the last command of a toggle list is the last
collected occurrence timestamp. -/
theorem lastTs_map (l : List Int) :
    lastTs (l.map (fun ts => { updated_at := ts, arg := none })) = l.getLastD 0 := by
  rw [lastTs, List.getLastD_eq_getLast?, List.getLast?_map, List.getLastD_eq_getLast?]
  cases l.getLast? <;> rfl

/-- Helper: for keywords other than `resolved_by_pr` and `component`, the
command list is exactly the occurrence timestamps in processing order. -/
theorem commandsFound_toggle (obj : Issue) (kw : String)
    (h1 : kw ≠ "resolved_by_pr") (h2 : kw ≠ "component") :
    commandsFound obj kw =
      (occTimestamps obj kw).map (fun ts => { updated_at := ts, arg := none }) := by
  simp [commandsFound, occTimestamps, h1, h2]

/-- Claim C1, amended: the claim holds only under the extra hypothesis that
the collected per-keyword command lists happen to be sorted ascending by
timestamp — `triage` never sorts them. Under that hypothesis, for each
toggle pair the effective state computed by `triage` is ON exactly when the
keyword occurs in the body or a comment and the negation either occurs
nowhere or has a strictly smaller maximum source timestamp. Without the
hypothesis the code compares the timestamps of the LAST APPENDED occurrences
(body first, then comments in event order), not the maxima. -/
theorem c1_amended (obj : Issue) (kw nkw : String)
    (hpair : (kw, nkw) = ("bot_broken", "!bot_broken") ∨
             (kw, nkw) = ("bot_skip", "!bot_skip"))
    (hk : (occTimestamps obj kw).Pairwise (fun a b => a ≤ b))
    (hn : (occTimestamps obj nkw).Pairwise (fun a b => a ≤ b)) :
    isEffective (commandsFound obj) kw nkw = specToggleEffective obj kw nkw := by
  have hkws : kw ≠ "resolved_by_pr" ∧ kw ≠ "component" ∧
      nkw ≠ "resolved_by_pr" ∧ nkw ≠ "component" := by
    rcases hpair with h | h <;>
    · rw [Prod.mk.injEq] at h
      obtain ⟨h1, h2⟩ := h
      subst h1; subst h2
      exact ⟨by decide, by decide, by decide, by decide⟩
  obtain ⟨hA, hB, hC, hD⟩ := hkws
  rw [isEffective, commandsFound_toggle obj kw hA hB, commandsFound_toggle obj nkw hC hD,
      specToggleEffective]
  cases hK : occTimestamps obj kw with
  | nil => simp
  | cons x xs =>
    cases hN : occTimestamps obj nkw with
    | nil => simp [lastTs_map]
    | cons y ys =>
      rw [hK] at hk
      rw [hN] at hn
      rw [listMax_sorted (x :: xs) hk (by simp), listMax_sorted (y :: ys) hn (by simp),
          lastTs_map (x :: xs), lastTs_map (y :: ys)]
      simp


/-- Helper: binding an error short-circuits. -/
@[simp]
theorem except_bind_error {A B : Type} (e : String) (f : A → Except String B) :
    (Except.error e : Except String A) >>= f = Except.error e := rfl

/-- Helper: binding a success applies the continuation. -/
@[simp]
theorem except_bind_ok {A B : Type} (a : A) (f : A → Except String B) :
    (Except.ok a : Except String A) >>= f = f a := rfl

/-- Helper: `List.contains` agrees with membership. -/
theorem contains_iff (l : List String) (a : String) : l.contains a = true ↔ a ∈ l := by
  simp [List.contains, List.elem_iff]

/-- Helper: `List.contains` is false exactly on non-members. -/
theorem contains_eq_false (l : List String) (a : String) :
    l.contains a = false ↔ a ∉ l := by
  constructor
  · intro h hm
    have h2 := (contains_iff l a).2 hm
    rw [h] at h2
    exact Bool.noConfusion h2
  · intro h
    cases hb : l.contains a with
    | false => rfl
    | true => exact absurd ((contains_iff l a).1 hb) h

/-- Claim C6: during discovery an object is selected for re-fetch if and
only if its number is absent from the cache, or its remote updated timestamp
is strictly greater than the cached object's, or at least `STALE_ISSUE_DAYS`
whole days have passed since the cached object was last triaged; objects
satisfying none of these are not re-fetched. -/
theorem c6_staleness_selection (cache : List (String × Issue)) (now : Int)
    (results : List (String × Int)) (n : String) (u : Int) :
    (n, u) ∈ staleFilter cache now results ↔
      ((n, u) ∈ results ∧
        (List.lookup n cache = none ∨
          ∃ c, List.lookup n cache = some c ∧
            (c.updated_at < u ∨ daysSince now c.last_triaged ≥ STALE_ISSUE_DAYS))) := by
  unfold staleFilter
  rw [List.mem_filter]
  cases h : List.lookup n cache with
  | none => simp [h]
  | some c => simp [h]

/-- Claim C10: `close_object` dispatches on the `Issue` variant before the
`PR` variant, and since `PR` subclasses `Issue` every object passes the first
check, so `close_object` always issues the issue-close mutation — the
`close_pr` branch is unreachable from `close_object`, including for every PR
(`isinstanceIssue` is constantly true). -/
theorem c10_close_object (obj : Issue) :
    close_object obj = some (Mutation.closeIssue obj.id) ∧ isinstanceIssue obj = true :=
  ⟨rfl, rfl⟩

/-- Claim C8: component overlay commands applied in command order are
order-sensitive: from any starting component list, `=a` then `+b` then `-a`
yields exactly `[b]`, whereas `+b` then `=a` yields exactly `[a]` —
replacement discards prior appends and removal deletes only a present
path. -/
theorem c8_overlay_order (s : List String) (a b : String) :
    applyComponentCommands s
        [String.mk ('=' :: a.data), String.mk ('+' :: b.data), String.mk ('-' :: a.data)] =
      .ok [b] ∧
    applyComponentCommands s [String.mk ('+' :: b.data), String.mk ('=' :: a.data)] =
      .ok [a] := by
  constructor
  · have h0 : applyComponentCommands s
        [String.mk ('=' :: a.data), String.mk ('+' :: b.data), String.mk ('-' :: a.data)] =
        applyComponentCommands [a, b] [String.mk ('-' :: a.data)] := rfl
    have h1 : applyComponentCommand [a, b] (String.mk ('-' :: a.data)) =
        .ok (if [a, b].contains a then [a, b].erase a else [a, b]) := rfl
    have hco : [a, b].contains a = true := by
      simp [List.contains, List.elem_iff]
    rw [h0]
    simp only [applyComponentCommands, h1, hco]
    simp [List.erase_cons_head]
  · rfl

/-- Claim C9: in non-dry-run mode, for every object on which `bot_broken` is
not effective, `triage` unconditionally calls `remove_labels` for
`bot_broken` before the `bot_skip` check, and `remove_labels` indexes the
label mapping without a guard; so whenever the current labels do not include
`bot_broken` the pass raises `KeyError`, for every rule pipeline. -/
theorem c9_keyerror (funcs : List Rule) (now : Int) (obj : Issue)
    (hbroken : isEffective (commandsFound obj) "bot_broken" "!bot_broken" = false)
    (hmem : "bot_broken" ∉ labelKeys obj) :
    triageObject funcs now obj false = .error "KeyError: bot_broken" := by
  have hc : (labelKeys obj).contains "bot_broken" = false :=
    (contains_eq_false (labelKeys obj) "bot_broken").2 hmem
  have hrm : removeLabelsMutation obj ["bot_broken"] = .error "KeyError: bot_broken" := by
    unfold removeLabelsMutation
    rw [List.find?_cons]
    rw [hc]
    rfl
  simp [triageObject, hbroken, hrm, except_bind_error]

/-- Witness for claim C9 at a concrete object with no labels. -/
theorem c9_keyerror_witness :
    triageObject [] 0 objC9 false = .error "KeyError: bot_broken" := by
  have h1 : isEffective (commandsFound objC9) "bot_broken" "!bot_broken" = false := by decide
  have h2 : "bot_broken" ∉ labelKeys objC9 := by decide
  exact c9_keyerror [] 0 objC9 h1 h2


/-- Claim C1 counterexample: on `objC1` the spec-side predicate (maximum
timestamps: the body occurrence stamped 10 beats the negation at 5) says the
toggle is ON, but `triage` compares the LAST APPENDED occurrences (the old
comment at 3 against the negation at 5) and computes OFF; the collected list
`[10, 3]` is visibly not sorted by timestamp. -/
theorem c1_counterexample :
    specToggleEffective objC1 "bot_broken" "!bot_broken" = true ∧
    isEffective (commandsFound objC1) "bot_broken" "!bot_broken" = false ∧
    occTimestamps objC1 "bot_broken" = [10, 3] ∧
    occTimestamps objC1 "!bot_broken" = [5] :=
  ⟨by decide, by decide, by decide, by decide⟩

/-- Witness for claim C1 at a concrete object whose occurrence lists are
sorted. -/
theorem c1_amended_witness :
    isEffective (commandsFound objC1w) "bot_skip" "!bot_skip" =
      specToggleEffective objC1w "bot_skip" "!bot_skip" := by
  have hs1 : (occTimestamps objC1w "bot_skip").Pairwise (fun a b => a ≤ b) := by decide
  have hs2 : (occTimestamps objC1w "!bot_skip").Pairwise (fun a b => a ≤ b) := by decide
  exact c1_amended objC1w "bot_skip" "!bot_skip" (Or.inr rfl) hs1 hs2

/-- Claim C2 counterexample: in the batch `[objC2a, objC2b]` the first
object's pass raises (the unconditional `remove_labels` raises `KeyError`),
and the batch result contains no triaged object at all — even though the
second object's pass would have succeeded — so one object's failure aborts
the whole batch, contradicting the claimed isolation. -/
theorem c2_counterexample :
    triageBatch [] 0 false [objC2a, objC2b] = ([], some "KeyError: bot_broken") ∧
    triageObject [] 0 objC2b false = .ok [Mutation.addLabels ["bot_broken"]] :=
  ⟨rfl, rfl⟩

/-- Claim C2, amended: after the diffing of lines 1297-1298 the to-add and
to-remove sets are disjoint by construction, so the consistency assertion of
line 1300 can never fire; and when processing an object raises any error,
the `triage` loop aborts and no object of the batch after (or including) the
offending one is triaged — failures are not isolated per object. -/
theorem c2_amended :
    (∀ toL toU keys : List String,
      (diffToLabel toL keys).any (fun l => (diffToUnlabel toU keys).contains l) = false) ∧
    (∀ (funcs : List Rule) (now : Int) (dryRun : Bool) (o : Issue) (rest : List Issue)
        (e : String), triageObject funcs now o dryRun = .error e →
        triageBatch funcs now dryRun (o :: rest) = ([], some e)) := by
  constructor
  · intro toL toU keys
    rw [List.any_eq_false]
    intro x hx hcon
    rw [diffToLabel, List.mem_filter] at hx
    have hx2 : x ∈ diffToUnlabel toU keys := (contains_iff _ _).1 hcon
    rw [diffToUnlabel, List.mem_filter] at hx2
    rw [hx2.2] at hx
    exact Bool.noConfusion hx.2
  · intro funcs now dryRun o rest e h
    simp [triageBatch, h]

/-- Witness for claim C2 on a concrete two-object batch whose first object
fails. -/
theorem c2_amended_witness :
    triageBatch [] 0 false [objC2a, objC2b] = ([], some "KeyError: bot_broken") :=
  c2_amended.2 [] 0 false objC2a [objC2b] "KeyError: bot_broken" rfl

/-- Claim C3 counterexample: on `objC3`, `bot_skip` is effective and
`bot_broken` is not, no `!bot_broken` command occurs anywhere, and yet the
non-dry-run pass performs a label mutation: it removes the `bot_broken`
label. -/
theorem c3_counterexample :
    isEffective (commandsFound objC3) "bot_skip" "!bot_skip" = true ∧
    isEffective (commandsFound objC3) "bot_broken" "!bot_broken" = false ∧
    commandsFound objC3 "!bot_broken" = [] ∧
    triageObject [] 0 objC3 false = .ok [Mutation.removeLabels ["bot_broken"]] ∧
    triageObject [] 0 objC3 true = .ok [] :=
  ⟨by decide, by decide, by decide, rfl, rfl⟩

/-- Claim C3, amended: when `bot_broken` is not effective and `bot_skip` is,
the rule pipeline is skipped (the outcome is identical for every rule list
and clock), but the pass is not mutation-free: non-dry-run, its exact effect
is the unconditional `remove_labels(obj, ["bot_broken"])` call — which
removes the `bot_broken` label whenever present, not only in response to an
effective `!bot_broken` command; in dry-run mode nothing is mutated. -/
theorem c3_amended (funcs funcs2 : List Rule) (now now2 : Int) (obj : Issue)
    (hbroken : isEffective (commandsFound obj) "bot_broken" "!bot_broken" = false)
    (hskip : isEffective (commandsFound obj) "bot_skip" "!bot_skip" = true) :
    triageObject funcs now obj false =
      (removeLabelsMutation obj ["bot_broken"]).map (fun m => [m]) ∧
    triageObject funcs now obj true = .ok [] ∧
    triageObject funcs now obj false = triageObject funcs2 now2 obj false := by
  have key : ∀ (fs : List Rule) (n : Int), triageObject fs n obj false =
      (removeLabelsMutation obj ["bot_broken"]).map (fun m => [m]) := by
    intro fs n
    cases hrm : removeLabelsMutation obj ["bot_broken"] with
    | error e => simp [triageObject, hbroken, hskip, hrm, Except.map]
    | ok m => simp [triageObject, hbroken, hskip, hrm, Except.map, pure, Except.pure]
  refine ⟨key funcs now, ?_, by rw [key funcs now, key funcs2 now2]⟩
  simp [triageObject, hbroken, hskip, pure, Except.pure]

/-- Witness for claim C3 at a concrete object with `bot_skip` effective. -/
theorem c3_amended_witness :
    triageObject [] 0 objC3 false =
      (removeLabelsMutation objC3 ["bot_broken"]).map (fun m => [m]) ∧
    triageObject [] 0 objC3 true = .ok [] ∧
    triageObject [] 0 objC3 false = triageObject [needs_info] 1 objC3 false := by
  have h1 : isEffective (commandsFound objC3) "bot_broken" "!bot_broken" = false := by decide
  have h2 : isEffective (commandsFound objC3) "bot_skip" "!bot_skip" = true := by decide
  exact c3_amended [] [needs_info] 0 1 objC3 h1 h2

/-- Helper: every line the component regex accepts carries an operator in
`=`, `+`, `-`. -/
theorem lineComponentCommand_validOp (line : List Char) (arg : String)
    (h : lineComponentCommand line = some arg) : validOpArg arg = true := by
  unfold lineComponentCommand at h
  cases hd : dropExpected "!component".data (stripBotMention line) with
  | none => rw [hd] at h; exact Option.noConfusion h
  | some rest =>
    rw [hd] at h
    cases rest with
    | nil => exact Option.noConfusion h
    | cons c rest2 =>
      cases rest2 with
      | nil => exact Option.noConfusion h
      | cons op path =>
        dsimp only at h
        by_cases hcond : (c.isWhitespace = true ∧ (op = '=' ∨ op = '+' ∨ op = '-') ∧
            path ≠ [] ∧ path.all (fun ch => !ch.isWhitespace) = true)
        · rw [if_pos hcond] at h
          injection h with h2
          subst h2
          obtain ⟨_, hop, _, _⟩ := hcond
          rcases hop with h | h | h <;> subst h <;> rfl
        · rw [if_neg hcond] at h
          exact Option.noConfusion h

/-- Helper: every parsed component command argument has a valid operator. -/
theorem parsed_validOp (body arg : String)
    (h : arg ∈ parseComponentCommands body) : validOpArg arg = true := by
  unfold parseComponentCommands at h
  rw [List.mem_filterMap] at h
  obtain ⟨line, _, hl⟩ := h
  exact lineComponentCommand_validOp line arg hl

/-- Helper: the overlay loop never raises on commands with valid
operators. -/
theorem applyComponentCommands_ok : (args : List String) → (start : List String) →
    (∀ x ∈ args, validOpArg x = true) →
    ∃ r, applyComponentCommands start args = Except.ok r
  | [], start, _ => ⟨start, rfl⟩
  | a :: rest, start, hall => by
    have ha := hall a (List.mem_cons_self a rest)
    have hstep : ∃ l2, applyComponentCommand start a = Except.ok l2 := by
      unfold validOpArg at ha
      cases hd : a.data with
      | nil => rw [hd] at ha; simp at ha
      | cons op path =>
        rw [hd] at ha
        simp only [Bool.or_eq_true, beq_iff_eq] at ha
        unfold applyComponentCommand
        rw [hd]
        rcases ha with (h | h) | h <;> subst h <;> exact ⟨_, rfl⟩
    obtain ⟨l2, hl2⟩ := hstep
    obtain ⟨r, hr⟩ := applyComponentCommands_ok rest l2
      (fun x hx => hall x (List.mem_cons_of_mem a hx))
    exact ⟨r, by simp [applyComponentCommands, hl2, hr]⟩

/-- Claim C4 counterexample: the component directive `!component *foo`, whose
operator `*` is not one of `=`, `+`, `-`, fails `COMPONENT_COMMAND_RE`, so no
command is collected and the overlay run finishes without any error — it is
silently ignored rather than raising the claimed fatal error; the identical
line with `=` parses fine, so the operator is the only difference. -/
theorem c4_counterexample :
    parseComponentCommands "!component *foo" = [] ∧
    applyComponentCommands ["x"] (parseComponentCommands "!component *foo") = .ok ["x"] ∧
    parseComponentCommands "!component =foo" = ["=foo"] :=
  ⟨by decide, rfl, by decide⟩

/-- Claim C4, amended: a component directive whose operator is not one of
`=`, `+`, `-` does not match the parsing regex and is ignored without error,
like every other malformed directive; every command that does parse carries
one of the three operators, so applying the parsed commands never raises and
the fatal `ValueError` branch of `match_components` is unreachable from
parsed input. -/
theorem c4_amended (body : String) (start : List String) :
    (∀ arg ∈ parseComponentCommands body, validOpArg arg = true) ∧
    ∃ r, applyComponentCommands start (parseComponentCommands body) = Except.ok r :=
  ⟨fun arg h => parsed_validOp body arg h,
   applyComponentCommands_ok (parseComponentCommands body) start
     (fun x hx => parsed_validOp body x hx)⟩

/-- Witness for claim C4 on a concrete body with one well-formed
directive. -/
theorem c4_amended_witness :
    validOpArg "=foo" = true ∧
    ∃ r, applyComponentCommands ["a"] (parseComponentCommands "!component =foo") =
      Except.ok r := by
  refine ⟨(c4_amended "!component =foo" ["a"]).1 "=foo" ?_,
    (c4_amended "!component =foo" ["a"]).2⟩
  decide

/-- Helper: membership in the diffed add list. -/
theorem mem_diffToLabel (toL keys : List String) (l : String) :
    l ∈ diffToLabel toL keys ↔ (l ∈ toL ∧ l ∉ keys) := by
  unfold diffToLabel
  rw [List.mem_filter]
  constructor
  · rintro ⟨h1, h2⟩
    refine ⟨h1, ?_⟩
    intro hm
    rw [(contains_iff keys l).2 hm] at h2
    exact Bool.noConfusion h2
  · rintro ⟨h1, h2⟩
    refine ⟨h1, ?_⟩
    rw [(contains_eq_false keys l).2 h2]
    rfl

/-- Helper: membership in the diffed remove list. -/
theorem mem_diffToUnlabel (toU keys : List String) (l : String) :
    l ∈ diffToUnlabel toU keys ↔ (l ∈ toU ∧ l ∈ keys) := by
  unfold diffToUnlabel
  rw [List.mem_filter]
  constructor
  · rintro ⟨h1, h2⟩
    exact ⟨h1, (contains_iff keys l).1 h2⟩
  · rintro ⟨h1, h2⟩
    exact ⟨h1, (contains_iff keys l).2 h2⟩

/-- Helper: membership in the label state after applying the diffed sets. -/
theorem mem_applyLabelSets (keys addS remS : List String) (l : String) :
    l ∈ applyLabelSets keys addS remS ↔ ((l ∈ keys ∧ l ∉ remS) ∨ l ∈ addS) := by
  unfold applyLabelSets
  rw [List.mem_append, List.mem_filter]
  constructor
  · rintro (⟨h1, h2⟩ | h)
    · left
      refine ⟨h1, ?_⟩
      intro hm
      rw [(contains_iff remS l).2 hm] at h2
      exact Bool.noConfusion h2
    · right; exact h
  · rintro (⟨h1, h2⟩ | h)
    · left
      refine ⟨h1, ?_⟩
      rw [(contains_eq_false remS l).2 h2]
      rfl
    · right; exact h

/-- Claim C5 counterexample: with the label `x` accumulated in BOTH sets and
currently present, the diff silently resolves to the remove side; re-running
the diff of the same accumulator against the resulting label state yields a
nonempty add set, so the claimed unconditional idempotence fails. -/
theorem c5_counterexample :
    diffToLabel ["x"] ["x"] = [] ∧
    diffToUnlabel ["x"] ["x"] = ["x"] ∧
    applyLabelSets ["x"] (diffToLabel ["x"] ["x"]) (diffToUnlabel ["x"] ["x"]) = [] ∧
    diffToLabel ["x"]
      (applyLabelSets ["x"] (diffToLabel ["x"] ["x"]) (diffToUnlabel ["x"] ["x"])) = ["x"] :=
  ⟨by decide, by decide, by decide, by decide⟩

/-- Claim C5, amended: the applied add set equals the accumulated to-add set
minus labels already present, and the applied remove set equals the
accumulated to-remove set restricted to labels present — and, PROVIDED the
accumulated to-add and to-remove sets are disjoint, re-running the diff on
the state resulting from applying those sets produces two empty sets. -/
theorem c5_amended (toL toU keys : List String) :
    (∀ l, l ∈ diffToLabel toL keys ↔ (l ∈ toL ∧ l ∉ keys)) ∧
    (∀ l, l ∈ diffToUnlabel toU keys ↔ (l ∈ toU ∧ l ∈ keys)) ∧
    ((∀ l, l ∈ toL → l ∉ toU) →
      diffToLabel toL
        (applyLabelSets keys (diffToLabel toL keys) (diffToUnlabel toU keys)) = [] ∧
      diffToUnlabel toU
        (applyLabelSets keys (diffToLabel toL keys) (diffToUnlabel toU keys)) = []) := by
  refine ⟨fun l => mem_diffToLabel toL keys l, fun l => mem_diffToUnlabel toU keys l, ?_⟩
  intro hdisj
  constructor
  · rw [List.eq_nil_iff_forall_not_mem]
    intro l hl
    rw [mem_diffToLabel] at hl
    obtain ⟨hin, hnot⟩ := hl
    apply hnot
    rw [mem_applyLabelSets]
    by_cases hk : l ∈ keys
    · left
      refine ⟨hk, ?_⟩
      rw [mem_diffToUnlabel]
      rintro ⟨hU, _⟩
      exact hdisj l hin hU
    · right
      rw [mem_diffToLabel]
      exact ⟨hin, hk⟩
  · rw [List.eq_nil_iff_forall_not_mem]
    intro l hl
    rw [mem_diffToUnlabel] at hl
    obtain ⟨hin, hNK⟩ := hl
    rw [mem_applyLabelSets] at hNK
    rcases hNK with ⟨hk, hnr⟩ | hadd
    · apply hnr
      rw [mem_diffToUnlabel]
      exact ⟨hin, hk⟩
    · rw [mem_diffToLabel] at hadd
      exact hdisj l hadd.1 hin

/-- Witness for claim C5 on concrete disjoint accumulated sets. -/
theorem c5_amended_witness :
    diffToLabel ["a"]
      (applyLabelSets ["b"] (diffToLabel ["a"] ["b"]) (diffToUnlabel ["b"] ["b"])) = [] ∧
    diffToUnlabel ["b"]
      (applyLabelSets ["b"] (diffToLabel ["a"] ["b"]) (diffToUnlabel ["b"] ["b"])) = [] :=
  (c5_amended ["a"] ["b"] ["b"]).2.2 (by decide)


/-- Claim C7 counterexample: `objC7` was labeled `needs_info` at time 0, its
author's only comment was created exactly at time 0 — so the author has NOT
commented after the labeling — 15 days have elapsed and no warning
boilerplate exists, so the claim demands exactly one warning comment; the
code instead takes the reply branch (`labeled > commented` is false at
equality) and schedules removal of `needs_info` with no comment at all. -/
theorem c7_counterexample :
    daysSince 1296000 0 = 15 ∧
    last_labeled objC7 "needs_info" = some 0 ∧
    last_commented_by objC7 objC7.author = some 0 ∧
    last_boilerplate objC7 "needs_info_warn" = none ∧
    last_boilerplate objC7 "needs_info_base" = none ∧
    needs_info { now := 1296000, cmds := commandsFound objC7 } objC7 {} =
      .ok (objC7, { to_unlabel := ["needs_info"] }) :=
  ⟨by decide, by decide, by decide, by decide, by decide, rfl⟩

/-- Claim C7, amended: for every object labeled `needs_info` (or having it
added this run): when the author's last comment is absent or STRICTLY before
the most recent `needs_info` labeling, then strictly more than
`NEEDS_INFO_CLOSE_DAYS` days after the labeling the rule schedules close
plus the closing comment; strictly more than `NEEDS_INFO_WARN_DAYS` (but at
most `NEEDS_INFO_CLOSE_DAYS`) days after it schedules exactly one warning
comment provided the most recent warn boilerplate — falling back to the base
boilerplate when no warn boilerplate exists — is absent or strictly predates
the labeling, and schedules nothing when that boilerplate is at or after the
labeling; at most `NEEDS_INFO_WARN_DAYS` days it schedules nothing; and when
the author's last comment is at or after the labeling it schedules removal
of the `needs_info` label instead. -/
theorem c7_amended (ctx : Ctx) (obj : Issue) (a0 : Actions) (L : Int)
    (hscope : "needs_info" ∈ labelKeys obj ∨
      "needs_info" ∈ (needsInfoCmdStep ctx a0).to_label)
    (hlab : last_labeled obj "needs_info" = some L) :
    ((last_commented_by obj obj.author = none ∨
        (∃ c, last_commented_by obj obj.author = some c ∧ c < L)) →
      (daysSince ctx.now L > NEEDS_INFO_CLOSE_DAYS →
        needs_info ctx obj a0 = .ok (obj,
          { needsInfoCmdStep ctx a0 with
            close := true,
            comments := (needsInfoCmdStep ctx a0).comments ++
              [getTemplate "needs_info_close"] })) ∧
      (NEEDS_INFO_WARN_DAYS < daysSince ctx.now L →
        daysSince ctx.now L ≤ NEEDS_INFO_CLOSE_DAYS →
        ((fallbackWarnBoilerplate obj = none ∨
            (∃ w, fallbackWarnBoilerplate obj = some w ∧ w < L)) →
          needs_info ctx obj a0 = .ok (obj,
            { needsInfoCmdStep ctx a0 with
              comments := (needsInfoCmdStep ctx a0).comments ++
                [getTemplate "needs_info_warn"] })) ∧
        (∀ w, fallbackWarnBoilerplate obj = some w → ¬ w < L →
          needs_info ctx obj a0 = .ok (obj, needsInfoCmdStep ctx a0))) ∧
      (daysSince ctx.now L ≤ NEEDS_INFO_WARN_DAYS →
        needs_info ctx obj a0 = .ok (obj, needsInfoCmdStep ctx a0))) ∧
    (∀ c, last_commented_by obj obj.author = some c → L ≤ c →
      needs_info ctx obj a0 = .ok (obj,
        { needsInfoCmdStep ctx a0 with
          to_label := (needsInfoCmdStep ctx a0).to_label.erase "needs_info",
          to_unlabel := (needsInfoCmdStep ctx a0).to_unlabel ++ ["needs_info"] })) := by
  have hwc : NEEDS_INFO_WARN_DAYS ≤ NEEDS_INFO_CLOSE_DAYS := by decide
  constructor
  · intro henc
    have hesc : (match last_commented_by obj obj.author with
        | none => true
        | some c => decide (L > c)) = true := by
      rcases henc with h | ⟨c, hc, hlt⟩
      · rw [h]
      · rw [hc]
        simpa using hlt
    refine ⟨?_, ?_, ?_⟩
    · intro hdays
      simp only [needs_info, hlab]
      rw [if_pos hscope, hesc]
      simp only [if_true]
      rw [if_pos hdays]
    · intro hw14 hw28
      constructor
      · intro hbp
        simp only [needs_info, hlab]
        rw [if_pos hscope, hesc]
        simp only [if_true]
        rw [if_neg (not_lt.2 hw28), if_pos hw14]
        rcases hbp with h | ⟨w, hw, hlt⟩
        · rw [h]
        · rw [hw]
          simp only [if_pos hlt]
      · intro w hw hnlt
        simp only [needs_info, hlab]
        rw [if_pos hscope, hesc]
        simp only [if_true]
        rw [if_neg (not_lt.2 hw28), if_pos hw14, hw]
        simp only [if_neg hnlt]
    · intro hdays
      simp only [needs_info, hlab]
      rw [if_pos hscope, hesc]
      simp only [if_true]
      rw [if_neg (not_lt.2 (hdays.trans hwc)), if_neg (not_lt.2 hdays)]
  · intro c hc hLc
    have hesc : (match last_commented_by obj obj.author with
        | none => true
        | some c => decide (L > c)) = false := by
      rw [hc]
      exact decide_eq_false (not_lt.2 hLc)
    simp only [needs_info, hlab]
    rw [if_pos hscope, hesc]
    simp only [Bool.false_eq_true, if_false]

/-- Witness for claim C7: the close escalation at 29 days on a concrete
object. -/
theorem c7_amended_witness :
    needs_info { now := 2505600, cmds := commandsFound objC7w } objC7w {} =
      .ok (objC7w, { close := true, comments := [getTemplate "needs_info_close"] }) := by
  have hs : "needs_info" ∈ labelKeys objC7w ∨
      "needs_info" ∈ (needsInfoCmdStep
        { now := 2505600, cmds := commandsFound objC7w } ({} : Actions)).to_label := by
    left
    decide
  have hl : last_labeled objC7w "needs_info" = some 0 := by decide
  have hd : daysSince (2505600 : Int) 0 > NEEDS_INFO_CLOSE_DAYS := by decide
  have hn : last_commented_by objC7w objC7w.author = none ∨
      (∃ c, last_commented_by objC7w objC7w.author = some c ∧ c < 0) := by
    left
    decide
  have h := ((c7_amended { now := 2505600, cmds := commandsFound objC7w } objC7w {} 0
    hs hl).1 hn).1 hd
  exact h.trans rfl

end Ansibot
